import Mathlib

/- Verification of the turn orchestration and state broadcast engine of the
chess-ai-battle server (src/server/main.go).  The Go program is shallowly
embedded: the mutable package globals become an explicit state record, the
chess engine (github.com/notnil/chess), the two move providers and the
sqlite database are external collaborators and enter as oracles (an
abstract `Rules` record, a per-attempt provider response, a per-write
success flag), and the buffered channel `gameStateChannel` becomes a
bounded queue.  Every side effect that matters to the specification (the
`select`-send offers to the channel, the "Applied move"/"Error making
move"/"Game over" log points) is recorded in an event trace. -/

set_option maxRecDepth 4000

/-- GameState mirrors the Go struct GameState (main.go lines 26-34).  The Go
fields ID (assigned by the sqlite store, never set on the snapshots the
server constructs) and CreatedAt (wall-clock time.Now()) carry no logical
content and are omitted from the embedding. -/
structure GameState where
  fen : String
  lastMove : String
  lastPlayer : String
  moveHistory : List String
  gameOutcome : String
  deriving DecidableEq

instance : Inhabited GameState := ⟨⟨"", "", "", [], ""⟩⟩

/-- The rules oracle: the notnil/chess engine exactly as main.go consumes it.
`moveStr` is game.MoveStr (returns the new position or rejects the move),
`outcome` is game.Outcome().String() where chess.NoOutcome prints "*" and the
terminal outcomes print "1-0", "0-1" or "1/2-1/2", `fen` is game.FEN(), and
`initial` is chess.NewGame(). -/
structure Rules (Pos : Type) where
  moveStr : Pos → String → Option Pos
  outcome : Pos → String
  fen : Pos → String
  initial : Pos

/-- The mutable package globals of main.go (lines 36-43): `game`,
`moveHistory`, `lastMove`, and the contents of the buffered channel
`gameStateChannel` (created in main, line 55, with capacity 100). -/
structure ServerState (Pos : Type) where
  game : Pos
  moveHistory : List String
  lastMove : String
  channel : List GameState

/-- players := []string{"openai", "anthropic"} (playGame, line 185). -/
def players : List String := ["openai", "anthropic"]

/-- The non-blocking `select { case gameStateChannel <- s: ... default: ... }`
send on the capacity-100 channel: enqueue when the backlog has space,
silently drop the snapshot when it is full.  It is a total function of the
queue alone, independent of how many observers (including zero) are
attached, so it can never block the game loop. -/
def publish (ch : List GameState) (gs : GameState) : List GameState :=
  if ch.length < 100 then ch ++ [gs] else ch

/-- Observable events of the loop: an offer of a snapshot to
gameStateChannel (every `select`-send site, lines 212 and 302), the
"Applied move %s for %s" log (line 252), the "Error making move for %s" log
in playGame (line 194), and the "Game over" log (line 222). -/
inductive Ev where
  | offer (gs : GameState)
  | applied (move player : String)
  | turnError (player : String)
  | gameOver (outc : String)
  deriving DecidableEq

/-- saveGameState (main.go lines 280-310): build the snapshot from the
current globals, write it to sqlite, and only if the write succeeded offer
it to gameStateChannel.  `dbOK` is the outcome of the external db.Exec (the
db-is-nil guard is a failing write as well).  On a failed write the
function returns the error before reaching the channel send, so neither the
channel nor the event trace sees the snapshot. -/
def saveGameState {Pos : Type} (R : Rules Pos) (player move outc : String)
    (dbOK : Bool) (st : ServerState Pos) :
    Bool × ServerState Pos × List Ev :=
  let gameState : GameState :=
    { fen := R.fen st.game, lastMove := move, lastPlayer := player,
      moveHistory := st.moveHistory, gameOutcome := outc }
  if dbOK then
    (true, { st with channel := publish st.channel gameState },
      [Ev.offer gameState])
  else
    (false, st, [])

/-- validateAndApplyMove (main.go lines 272-278): game.MoveStr mutates the
game on success and reports an error on an illegal move. -/
def validateAndApplyMove {Pos : Type} (R : Rules Pos) (st : ServerState Pos)
    (move : String) : Option (ServerState Pos) :=
  match R.moveStr st.game move with
  | some g => some { st with game := g }
  | none => none

/-- Result of one makeMove call: `ok` is `err == nil`, `st` the globals
after the call, `evs` the events it produced, and `calls` the number of
getMove invocations (provider request/validate cycles) it performed. -/
structure MoveRes (Pos : Type) where
  ok : Bool
  st : ServerState Pos
  evs : List Ev
  calls : Nat

/-- The attempt loop of makeMove (main.go lines 237-256) over the list of
provider responses for the successive attempts (`none` = the getMove call
errored, `some m` = the provider returned the text m).  A provider error or
an illegal move falls through to the next attempt (threading the last
invalid move for the retry feedback); a legal move updates lastMove,
appends to moveHistory and returns saveGameState's result. -/
def makeMoveGo {Pos : Type} (R : Rules Pos) (dbOK : Bool) (player : String) :
    List (Option String) → String → ServerState Pos → MoveRes Pos
  | [], _, st => { ok := false, st := st, evs := [], calls := 0 }
  | r :: rest, lastInvalid, st =>
    match r with
    | none =>
      let m := makeMoveGo R dbOK player rest lastInvalid st
      { m with calls := m.calls + 1 }
    | some move =>
      match validateAndApplyMove R st move with
      | none =>
        let m := makeMoveGo R dbOK player rest move st
        { m with calls := m.calls + 1 }
      | some st0 =>
        let st1 : ServerState Pos :=
          { st0 with lastMove := move, moveHistory := st.moveHistory ++ [move] }
        let s := saveGameState R player move "" dbOK st1
        { ok := s.1, st := s.2.1, evs := Ev.applied move player :: s.2.2,
          calls := 1 }

/-- makeMove (main.go lines 233-259): `for attempts := 0; attempts < 3`.
The two HTTP providers behind getMove are external, so the response of
attempt k is the oracle `provider k`.  When every attempt fails the Go
function returns fmt.Errorf("failed to get a valid move after 3 attempts")
(`ok = false`). -/
def makeMove {Pos : Type} (R : Rules Pos) (dbOK : Bool) (player : String)
    (provider : Nat → Option String) (st : ServerState Pos) : MoveRes Pos :=
  makeMoveGo R dbOK player ((List.range 3).map provider) "" st

/-- initGame (main.go lines 87-91): reset game, moveHistory and lastMove.
The channel is a process-wide global that initGame does not touch. -/
def initGame {Pos : Type} (R : Rules Pos) (st : ServerState Pos) :
    ServerState Pos :=
  { st with game := R.initial, moveHistory := [], lastMove := "" }

/-- State local to a playGame invocation: the globals plus playerIndex and
moveCount (main.go lines 186-187). -/
structure LoopState (Pos : Type) where
  server : ServerState Pos
  playerIndex : Nat
  moveCount : Nat

/-- The external inputs consumed by one step of the loop: the provider
responses for the up-to-three acquisition attempts of the turn, and the
success of the sqlite write performed during the step. -/
structure TurnEnv where
  provider : Nat → Option String
  dbOK : Bool

/-- The makeMove call site in playGame (line 193): the current player is
players[playerIndex]. -/
def turnMove {Pos : Type} (R : Rules Pos) (e : TurnEnv) (ls : LoopState Pos) :
    MoveRes Pos :=
  makeMove R e.dbOK (players.getD ls.playerIndex "") e.provider ls.server

/-- One step of playGame (main.go lines 184-231).  While
game.Outcome() == chess.NoOutcome (string "*") the step is one loop
iteration: on a makeMove error the loop logs the failure, sleeps 5 seconds
and continues with the same playerIndex; on success it advances playerIndex
modulo 2, increments moveCount, builds the currentState snapshot (with the
engine's outcome string) and offers it to the channel, then sleeps 3
seconds.  Once the outcome is terminal the step is the loop exit: log
"Game over", saveGameState(players[playerIndex], lastMove, outcome) -- with
playerIndex already advanced past the mover of the final move -- then
initGame and a fresh playGame invocation (playerIndex and moveCount reset
to 0). -/
def playGameStep {Pos : Type} (R : Rules Pos) (e : TurnEnv)
    (ls : LoopState Pos) : LoopState Pos × List Ev :=
  if R.outcome ls.server.game = "*" then
    let currentPlayer := players.getD ls.playerIndex ""
    let m := turnMove R e ls
    if m.ok then
      let currentState : GameState :=
        { fen := R.fen m.st.game, lastMove := m.st.lastMove,
          lastPlayer := currentPlayer, moveHistory := m.st.moveHistory,
          gameOutcome := R.outcome m.st.game }
      ({ server := { m.st with channel := publish m.st.channel currentState },
         playerIndex := (ls.playerIndex + 1) % 2,
         moveCount := ls.moveCount + 1 },
        m.evs ++ [Ev.offer currentState])
    else
      ({ ls with server := m.st }, m.evs ++ [Ev.turnError currentPlayer])
  else
    let s := saveGameState R (players.getD ls.playerIndex "")
      ls.server.lastMove (R.outcome ls.server.game) e.dbOK ls.server
    ({ server := initGame R s.2.1, playerIndex := 0, moveCount := 0 },
      Ev.gameOver (R.outcome ls.server.game) :: s.2.2)

/-- Iterate playGameStep over a list of per-step environments, collecting
the event trace in order. -/
def playGameRun {Pos : Type} (R : Rules Pos) :
    List TurnEnv → LoopState Pos → LoopState Pos × List Ev
  | [], ls => (ls, [])
  | e :: es, ls =>
    let s := playGameStep R e ls
    let t := playGameRun R es s.1
    (t.1, s.2 ++ t.2)

/-- The loop state after the first i steps of a run. -/
def stateAt {Pos : Type} (R : Rules Pos) (envs : List TurnEnv)
    (ls : LoopState Pos) (i : Nat) : LoopState Pos :=
  (playGameRun R (envs.take i) ls).1

/-- The globals right after startup: initDB/initGame/main have run, the
channel is empty. -/
def initServer {Pos : Type} (R : Rules Pos) : ServerState Pos :=
  { game := R.initial, moveHistory := [], lastMove := "", channel := [] }

/-- The loop state at the first playGame invocation. -/
def initLoop {Pos : Type} (R : Rules Pos) : LoopState Pos :=
  { server := initServer R, playerIndex := 0, moveCount := 0 }

/-- The snapshots offered to gameStateChannel during a trace, in order
(both `select`-send sites, whether or not the backlog had room). -/
def offersOf (evs : List Ev) : List GameState :=
  evs.filterMap fun e =>
    match e with
    | Ev.offer gs => some gs
    | _ => none

/-- The moves applied during a trace, in order (the "Applied move" log). -/
def appliedOf (evs : List Ev) : List String :=
  evs.filterMap fun e =>
    match e with
    | Ev.applied mv _ => some mv
    | _ => none

/-- Applied (move, player) pairs of a trace. -/
def appliedPairs (evs : List Ev) : List (String × String) :=
  evs.filterMap fun e =>
    match e with
    | Ev.applied mv p => some (mv, p)
    | _ => none

/-- Number of "Game over" loop exits in a trace (finished games). -/
def gameOversOf (evs : List Ev) : Nat :=
  evs.countP fun e =>
    match e with
    | Ev.gameOver _ => true
    | _ => false

/-- A snapshot whose outcome field is terminal: neither the engine's
in-progress string "*" nor the empty string that saveGameState receives for
a per-move save. -/
def isTerminal (gs : GameState) : Bool :=
  gs.gameOutcome != "*" && gs.gameOutcome != ""

/-- Attempt r fails against position g: the provider call errored, or the
returned text is rejected by game.MoveStr. -/
def attFails {Pos : Type} (R : Rules Pos) (g : Pos) : Option String → Bool
  | none => true
  | some mv => (R.moveStr g mv).isNone

/-- The currentState snapshot playGame builds after a successful turn
(main.go lines 204-211): the post-move position, lastMove, the mover,
the history and the engine outcome string. -/
def loopSnap {Pos : Type} (R : Rules Pos) (e : TurnEnv) (ls : LoopState Pos) : GameState :=
  { fen := R.fen (turnMove R e ls).st.game,
    lastMove := (turnMove R e ls).st.lastMove,
    lastPlayer := players.getD ls.playerIndex "",
    moveHistory := (turnMove R e ls).st.moveHistory,
    gameOutcome := R.outcome (turnMove R e ls).st.game }

/-- The snapshot the final saveGameState call after the loop builds
(main.go line 224): note its lastPlayer is players[playerIndex] with
playerIndex already advanced past the mover of the final move. -/
def finalSnap {Pos : Type} (R : Rules Pos) (ls : LoopState Pos) : GameState :=
  { fen := R.fen ls.server.game, lastMove := ls.server.lastMove,
    lastPlayer := players.getD ls.playerIndex "",
    moveHistory := ls.server.moveHistory,
    gameOutcome := R.outcome ls.server.game }

/-- The snapshot saveGameState builds for a per-move save inside makeMove
(main.go lines 255 and 285-292): its outcome argument is the empty
string. -/
def saveSnap {Pos : Type} (R : Rules Pos) (e : TurnEnv) (ls : LoopState Pos) : GameState :=
  { fen := R.fen (turnMove R e ls).st.game,
    lastMove := (turnMove R e ls).st.lastMove,
    lastPlayer := players.getD ls.playerIndex "",
    moveHistory := (turnMove R e ls).st.moveHistory,
    gameOutcome := "" }

/-- A concrete published snapshot used when analysing observer delivery. -/
def g0 : GameState :=
  { fen := "e4", lastMove := "e4", lastPlayer := "openai",
    moveHistory := ["e4"], gameOutcome := "" }

/-- One receive step by SSE connection number i.  Every handleSSEGameState
connection (main.go lines 152-179) reads from the one shared
gameStateChannel; a Go channel receive removes the element from the queue
and hands it to exactly the one receiver that won it, so connection i
appends the head of the backlog to the sequence it has pushed to its own
client, and the element is gone for every other connection. -/
def recvStep (s : List GameState × List (List GameState)) (i : Nat) :
    List GameState × List (List GameState) :=
  match s.1 with
  | [] => s
  | g :: rest =>
    if i < s.2.length then (rest, s.2.set i (s.2.getD i [] ++ [g])) else s

/-- Deliveries from a backlog holding the single published snapshot g0 to
two attached SSE connections, under an arbitrary interleaving of their
receives (the schedule lists which connection receives next). -/
def obsDeliver (sched : List Nat) : List GameState × List (List GameState) :=
  sched.foldl recvStep ([g0], [[], []])

/-- A concrete instance of the rules oracle used to evaluate the embedding
on closed inputs: a position is the list of applied moves, any move other
than the text "bad" is legal, and the game is over (outcome "1-0") once k
moves have been applied. -/
def toyRules (k : Nat) : Rules (List String) :=
  { moveStr := fun p mv => if mv = "bad" then none else some (p ++ [mv])
    outcome := fun p => if k ≤ p.length then "1-0" else "*"
    fen := fun p => String.intercalate " " p
    initial := [] }

/-- A turn whose provider answers "e4" at once and whose db write succeeds. -/
def envOK : TurnEnv := { provider := fun _ => some "e4", dbOK := true }

/-- A turn whose provider answers "e4" at once but whose db write fails. -/
def envDBFail : TurnEnv := { provider := fun _ => some "e4", dbOK := false }

/-- A turn whose provider answers the illegal text "bad" on every attempt. -/
def envBad : TurnEnv := { provider := fun _ => some "bad", dbOK := true }

/-- A finished-game loop state over the toy oracle: five moves played, the
slot index already advanced. -/
def doneLS : LoopState (List String) :=
  { server := { game := ["a", "b", "c", "d", "e"],
                moveHistory := ["a", "b", "c", "d", "e"],
                lastMove := "e", channel := [] },
    playerIndex := 1, moveCount := 5 }

lemma getLastD_append (l1 l2 : List String) (d : String) :
    (l1 ++ l2).getLastD d = l2.getLastD (l1.getLastD d) := by
  simp only [List.getLastD_eq_getLast?, List.getLast?_append]
  cases h : l2.getLast? <;> simp [h]

lemma offersOf_append (l1 l2 : List Ev) :
    offersOf (l1 ++ l2) = offersOf l1 ++ offersOf l2 := by
  simp [offersOf, List.filterMap_append]

lemma appliedOf_append (l1 l2 : List Ev) :
    appliedOf (l1 ++ l2) = appliedOf l1 ++ appliedOf l2 := by
  simp [appliedOf, List.filterMap_append]

lemma makeMoveGo_calls_le {Pos : Type} (R : Rules Pos) (dbOK : Bool) (player : String) :
    ∀ (atts : List (Option String)) (li : String) (st : ServerState Pos),
      (makeMoveGo R dbOK player atts li st).calls ≤ atts.length := by
  intro atts
  induction atts with
  | nil => intro li st; simp [makeMoveGo]
  | cons r rest ih =>
    intro li st
    cases r with
    | none => simpa [makeMoveGo] using Nat.succ_le_succ (ih _ st)
    | some mv =>
      cases h : validateAndApplyMove R st mv with
      | none => simpa [makeMoveGo, h] using Nat.succ_le_succ (ih _ st)
      | some st0 => simp [makeMoveGo, h]

lemma makeMoveGo_exhaust {Pos : Type} (R : Rules Pos) (dbOK : Bool) (player : String) :
    ∀ (atts : List (Option String)) (li : String) (st : ServerState Pos),
      (∀ r ∈ atts, attFails R st.game r = true) →
      makeMoveGo R dbOK player atts li st
        = { ok := false, st := st, evs := [], calls := atts.length } := by
  intro atts
  induction atts with
  | nil => intro li st _; rfl
  | cons r rest ih =>
    intro li st h
    have hr := h r (by simp)
    have hrest : ∀ x ∈ rest, attFails R st.game x = true := fun x hx => h x (by simp [hx])
    cases r with
    | none => simp [makeMoveGo, ih _ st hrest]
    | some mv =>
      have hmv : R.moveStr st.game mv = none := by
        simpa [attFails, Option.isNone_iff_eq_none] using hr
      simp [makeMoveGo, validateAndApplyMove, hmv, ih _ st hrest]

lemma makeMoveGo_fail_spec {Pos : Type} (R : Rules Pos) (player : String) :
    ∀ (atts : List (Option String)) (li : String) (st : ServerState Pos),
      (makeMoveGo R true player atts li st).ok = false →
      makeMoveGo R true player atts li st
        = { ok := false, st := st, evs := [], calls := atts.length } := by
  intro atts
  induction atts with
  | nil => intro li st _; rfl
  | cons r rest ih =>
    intro li st hok
    cases r with
    | none =>
      simp only [makeMoveGo] at hok ⊢
      simp [ih _ st hok]
    | some mv =>
      cases h : validateAndApplyMove R st mv with
      | none =>
        simp only [makeMoveGo, h] at hok ⊢
        simp [ih _ st hok]
      | some st0 =>
        simp [makeMoveGo, h, saveGameState] at hok

lemma makeMoveGo_ok_spec {Pos : Type} (R : Rules Pos) (dbOK : Bool) (player : String) :
    ∀ (atts : List (Option String)) (li : String) (st : ServerState Pos),
      (makeMoveGo R dbOK player atts li st).ok = true →
      dbOK = true ∧
      (makeMoveGo R dbOK player atts li st).st.moveHistory
        = st.moveHistory ++ [(makeMoveGo R dbOK player atts li st).st.lastMove] ∧
      (makeMoveGo R dbOK player atts li st).evs
        = [Ev.applied (makeMoveGo R dbOK player atts li st).st.lastMove player,
           Ev.offer { fen := R.fen (makeMoveGo R dbOK player atts li st).st.game,
                      lastMove := (makeMoveGo R dbOK player atts li st).st.lastMove,
                      lastPlayer := player,
                      moveHistory := (makeMoveGo R dbOK player atts li st).st.moveHistory,
                      gameOutcome := "" }] := by
  intro atts
  induction atts with
  | nil => intro li st hok; simp [makeMoveGo] at hok
  | cons r rest ih =>
    intro li st hok
    cases r with
    | none =>
      simp only [makeMoveGo] at hok ⊢
      exact ih _ st hok
    | some mv =>
      cases h : validateAndApplyMove R st mv with
      | none =>
        simp only [makeMoveGo, h] at hok ⊢
        exact ih _ st hok
      | some st0 =>
        cases hdb : dbOK with
        | false => simp [makeMoveGo, h, saveGameState, hdb] at hok
        | true => simp [makeMoveGo, h, saveGameState, hdb]

lemma makeMoveGo_hist {Pos : Type} (R : Rules Pos) (dbOK : Bool) (player : String) :
    ∀ (atts : List (Option String)) (li : String) (st : ServerState Pos),
      (makeMoveGo R dbOK player atts li st).st.moveHistory
        = st.moveHistory ++ appliedOf (makeMoveGo R dbOK player atts li st).evs ∧
      (makeMoveGo R dbOK player atts li st).st.lastMove
        = (appliedOf (makeMoveGo R dbOK player atts li st).evs).getLastD st.lastMove := by
  intro atts
  induction atts with
  | nil => intro li st; simp [makeMoveGo, appliedOf]
  | cons r rest ih =>
    intro li st
    cases r with
    | none =>
      simp only [makeMoveGo]
      exact ih _ st
    | some mv =>
      cases h : validateAndApplyMove R st mv with
      | none =>
        simp only [makeMoveGo, h]
        exact ih _ st
      | some st0 =>
        cases hdb : dbOK with
        | false => simp [makeMoveGo, h, saveGameState, hdb, appliedOf]
        | true => simp [makeMoveGo, h, saveGameState, hdb, appliedOf]

lemma turnMove_eq {Pos : Type} (R : Rules Pos) (e : TurnEnv) (ls : LoopState Pos) :
    turnMove R e ls
      = makeMoveGo R e.dbOK (players.getD ls.playerIndex "")
          ((List.range 3).map e.provider) "" ls.server := rfl

lemma step_turn_fail {Pos : Type} (R : Rules Pos) (e : TurnEnv) (ls : LoopState Pos)
    (hstar : R.outcome ls.server.game = "*") (hdb : e.dbOK = true)
    (hok : (turnMove R e ls).ok = false) :
    playGameStep R e ls = (ls, [Ev.turnError (players.getD ls.playerIndex "")]) ∧
    turnMove R e ls = { ok := false, st := ls.server, evs := [], calls := 3 } := by
  have hok' : (makeMoveGo R true (players.getD ls.playerIndex "")
      ((List.range 3).map e.provider) "" ls.server).ok = false := by
    have h2 := hok
    rw [turnMove_eq, hdb] at h2
    exact h2
  have hspec := makeMoveGo_fail_spec R (players.getD ls.playerIndex "")
      ((List.range 3).map e.provider) "" ls.server hok'
  have htm : turnMove R e ls
      = { ok := false, st := ls.server, evs := [], calls := 3 } := by
    rw [turnMove_eq, hdb, hspec]
    simp
  refine ⟨?_, htm⟩
  unfold playGameStep
  rw [if_pos hstar, htm]
  simp

lemma step_turn_ok {Pos : Type} (R : Rules Pos) (e : TurnEnv) (ls : LoopState Pos)
    (hstar : R.outcome ls.server.game = "*") (hok : (turnMove R e ls).ok = true) :
    playGameStep R e ls
      = ({ server := { (turnMove R e ls).st with
             channel := publish (turnMove R e ls).st.channel (loopSnap R e ls) },
           playerIndex := (ls.playerIndex + 1) % 2, moveCount := ls.moveCount + 1 },
         (turnMove R e ls).evs ++ [Ev.offer (loopSnap R e ls)]) := by
  unfold playGameStep
  rw [if_pos hstar]
  simp only [hok, loopSnap, if_true]

lemma step_gameOver {Pos : Type} (R : Rules Pos) (e : TurnEnv) (ls : LoopState Pos)
    (hover : ¬ R.outcome ls.server.game = "*") (hdb : e.dbOK = true) :
    playGameStep R e ls
      = ({ server := initGame R { ls.server with
              channel := publish ls.server.channel (finalSnap R ls) },
           playerIndex := 0, moveCount := 0 },
         [Ev.gameOver (R.outcome ls.server.game), Ev.offer (finalSnap R ls)]) := by
  unfold playGameStep
  rw [if_neg hover]
  simp [saveGameState, hdb, finalSnap]

lemma step_gameOver_state {Pos : Type} (R : Rules Pos) (e : TurnEnv) (ls : LoopState Pos)
    (hover : ¬ R.outcome ls.server.game = "*") :
    (playGameStep R e ls).1.server.moveHistory = [] ∧
    (playGameStep R e ls).1.server.lastMove = "" ∧
    (playGameStep R e ls).1.server.game = R.initial ∧
    (playGameStep R e ls).1.playerIndex = 0 := by
  unfold playGameStep
  rw [if_neg hover]
  cases hdb : e.dbOK <;> simp [saveGameState, initGame, hdb]

lemma playGameRun_append {Pos : Type} (R : Rules Pos) (l1 l2 : List TurnEnv)
    (ls : LoopState Pos) :
    playGameRun R (l1 ++ l2) ls
      = ((playGameRun R l2 (playGameRun R l1 ls).1).1,
         (playGameRun R l1 ls).2 ++ (playGameRun R l2 (playGameRun R l1 ls).1).2) := by
  induction l1 generalizing ls with
  | nil => simp [playGameRun]
  | cons e es ih => simp [playGameRun, ih, List.append_assoc]

lemma stateAt_zero {Pos : Type} (R : Rules Pos) (envs : List TurnEnv) (ls : LoopState Pos) :
    stateAt R envs ls 0 = ls := rfl

lemma stateAt_cons {Pos : Type} (R : Rules Pos) (e : TurnEnv) (es : List TurnEnv)
    (ls : LoopState Pos) (i : Nat) :
    stateAt R (e :: es) ls (i + 1) = stateAt R es (playGameStep R e ls).1 i := by
  simp [stateAt, List.take_succ_cons, playGameRun]

lemma step_turn_fail_any {Pos : Type} (R : Rules Pos) (e : TurnEnv) (ls : LoopState Pos)
    (hstar : R.outcome ls.server.game = "*") (hok : (turnMove R e ls).ok = false) :
    playGameStep R e ls
      = ({ ls with server := (turnMove R e ls).st },
         (turnMove R e ls).evs ++ [Ev.turnError (players.getD ls.playerIndex "")]) := by
  unfold playGameStep
  rw [if_pos hstar]
  simp [hok]

lemma step_hist {Pos : Type} (R : Rules Pos) (e : TurnEnv) (ls : LoopState Pos)
    (hstar : R.outcome ls.server.game = "*") :
    (playGameStep R e ls).1.server.moveHistory
      = ls.server.moveHistory ++ appliedOf (playGameStep R e ls).2 ∧
    (playGameStep R e ls).1.server.lastMove
      = (appliedOf (playGameStep R e ls).2).getLastD ls.server.lastMove := by
  have hm := makeMoveGo_hist R e.dbOK (players.getD ls.playerIndex "")
      ((List.range 3).map e.provider) "" ls.server
  rw [← turnMove_eq] at hm
  cases hok : (turnMove R e ls).ok with
  | false =>
    rw [step_turn_fail_any R e ls hstar hok]
    refine ⟨?_, ?_⟩
    · simpa [appliedOf_append, appliedOf] using hm.1
    · simpa [appliedOf_append, appliedOf] using hm.2
  | true =>
    rw [step_turn_ok R e ls hstar hok]
    refine ⟨?_, ?_⟩
    · simpa [appliedOf_append, appliedOf] using hm.1
    · simpa [appliedOf_append, appliedOf] using hm.2

lemma run_hist {Pos : Type} (R : Rules Pos) :
    ∀ (envs : List TurnEnv) (ls : LoopState Pos),
      (∀ i, i < envs.length → R.outcome (stateAt R envs ls i).server.game = "*") →
      (playGameRun R envs ls).1.server.moveHistory
        = ls.server.moveHistory ++ appliedOf (playGameRun R envs ls).2 ∧
      (playGameRun R envs ls).1.server.lastMove
        = (appliedOf (playGameRun R envs ls).2).getLastD ls.server.lastMove := by
  intro envs
  induction envs with
  | nil => intro ls _; simp [playGameRun, appliedOf]
  | cons e es ih =>
    intro ls h
    have hstar : R.outcome ls.server.game = "*" := h 0 (by simp)
    have hshift : ∀ i, i < es.length →
        R.outcome (stateAt R es (playGameStep R e ls).1 i).server.game = "*" := by
      intro i hi
      have h2 := h (i + 1) (by simpa using Nat.succ_lt_succ hi)
      rwa [stateAt_cons] at h2
    have hstep := step_hist R e ls hstar
    have hrec := ih (playGameStep R e ls).1 hshift
    refine ⟨?_, ?_⟩
    · simp only [playGameRun]
      rw [hrec.1, hstep.1, appliedOf_append, List.append_assoc]
    · simp only [playGameRun]
      rw [hrec.2, hstep.2, appliedOf_append, getLastD_append]

lemma turnMove_ok_spec {Pos : Type} (R : Rules Pos) (e : TurnEnv) (ls : LoopState Pos)
    (hok : (turnMove R e ls).ok = true) :
    (turnMove R e ls).st.moveHistory
      = ls.server.moveHistory ++ [(turnMove R e ls).st.lastMove] ∧
    (turnMove R e ls).evs
      = [Ev.applied (turnMove R e ls).st.lastMove (players.getD ls.playerIndex ""),
         Ev.offer { fen := R.fen (turnMove R e ls).st.game,
                    lastMove := (turnMove R e ls).st.lastMove,
                    lastPlayer := players.getD ls.playerIndex "",
                    moveHistory := (turnMove R e ls).st.moveHistory,
                    gameOutcome := "" }] := by
  have h := makeMoveGo_ok_spec R e.dbOK (players.getD ls.playerIndex "")
      ((List.range 3).map e.provider) "" ls.server (by rw [← turnMove_eq]; exact hok)
  rw [← turnMove_eq] at h
  exact ⟨h.2.1, h.2.2⟩

lemma playGameRun_cons {Pos : Type} (R : Rules Pos) (e : TurnEnv) (es : List TurnEnv)
    (ls : LoopState Pos) :
    playGameRun R (e :: es) ls
      = ((playGameRun R es (playGameStep R e ls).1).1,
         (playGameStep R e ls).2 ++ (playGameRun R es (playGameStep R e ls).1).2) := rfl

lemma terminal_count_run {Pos : Type} (R : Rules Pos) (hR : ∀ p : Pos, ¬ R.outcome p = "") :
    ∀ (envs : List TurnEnv) (ls : LoopState Pos),
      (∀ x ∈ envs, x.dbOK = true) →
      R.outcome ls.server.game = "*" →
      (∀ i, i < envs.length → R.outcome (stateAt R envs ls i).server.game = "*") →
      ((offersOf (playGameRun R envs ls).2).countP isTerminal)
        = (if R.outcome (playGameRun R envs ls).1.server.game = "*" then 0 else 1) := by
  intro envs
  induction envs with
  | nil =>
    intro ls _ hstar _
    simp [playGameRun, offersOf, hstar]
  | cons e es ih =>
    intro ls hdb hstar h
    have hdbe : e.dbOK = true := hdb e (by simp)
    have hdbes : ∀ x ∈ es, x.dbOK = true := fun x hx => hdb x (by simp [hx])
    have hshift : ∀ i, i < es.length →
        R.outcome (stateAt R es (playGameStep R e ls).1 i).server.game = "*" := by
      intro i hi
      have h2 := h (i + 1) (by simpa using Nat.succ_lt_succ hi)
      rwa [stateAt_cons] at h2
    cases hok : (turnMove R e ls).ok with
    | false =>
      have hf := (step_turn_fail R e ls hstar hdbe hok).1
      have hshift2 : ∀ i, i < es.length →
          R.outcome (stateAt R es ls i).server.game = "*" := by
        intro i hi
        have h2 := hshift i hi
        rwa [hf] at h2
      rw [playGameRun_cons]
      rw [hf]
      have hrec := ih ls hdbes hstar hshift2
      simpa [offersOf_append, List.countP_append, offersOf] using hrec
    | true =>
      have hs := step_turn_ok R e ls hstar hok
      have hspec := turnMove_ok_spec R e ls hok
      have hoffers : offersOf (playGameStep R e ls).2
          = [{ fen := R.fen (turnMove R e ls).st.game,
               lastMove := (turnMove R e ls).st.lastMove,
               lastPlayer := players.getD ls.playerIndex "",
               moveHistory := (turnMove R e ls).st.moveHistory,
               gameOutcome := "" },
             loopSnap R e ls] := by
        rw [hs]
        simp only [offersOf_append, hspec.2]
        simp [offersOf]
      have hgame1 : (playGameStep R e ls).1.server.game = (turnMove R e ls).st.game := by
        rw [hs]
      have hsave : isTerminal ({ fen := R.fen (turnMove R e ls).st.game,
                                 lastMove := (turnMove R e ls).st.lastMove,
                                 lastPlayer := players.getD ls.playerIndex "",
                                 moveHistory := (turnMove R e ls).st.moveHistory,
                                 gameOutcome := "" } : GameState) = false := by
        simp [isTerminal]
      cases es with
      | nil =>
        rw [playGameRun_cons]
        simp only [playGameRun, List.append_nil]
        rw [hoffers]
        simp only [List.countP_cons, List.countP_nil, hsave]
        have hne := hR (turnMove R e ls).st.game
        by_cases ho : R.outcome (turnMove R e ls).st.game = "*"
        · simp [isTerminal, loopSnap, ho, hgame1]
        · simp [isTerminal, loopSnap, ho, hgame1, hne]
      | cons e2 es2 =>
        have hmid : R.outcome (playGameStep R e ls).1.server.game = "*" := by
          have h2 := h 1 (by simp)
          rwa [stateAt_cons, stateAt_zero] at h2
        have ho : R.outcome (turnMove R e ls).st.game = "*" := by
          rwa [hgame1] at hmid
        have hcnt0 : (offersOf (playGameStep R e ls).2).countP isTerminal = 0 := by
          rw [hoffers]
          simp [isTerminal, loopSnap, ho, hsave]
        have hrec := ih (playGameStep R e ls).1 hdbes hmid hshift
        rw [playGameRun_cons]
        simp only [offersOf_append, List.countP_append]
        rw [hcnt0, hrec]
        simp

lemma step_offers_ok {Pos : Type} (R : Rules Pos) (e : TurnEnv) (ls : LoopState Pos)
    (hstar : R.outcome ls.server.game = "*") (hok : (turnMove R e ls).ok = true) :
    offersOf (playGameStep R e ls).2 = [saveSnap R e ls, loopSnap R e ls] := by
  rw [step_turn_ok R e ls hstar hok]
  simp only [offersOf_append, (turnMove_ok_spec R e ls hok).2]
  simp [offersOf, saveSnap]

lemma first_offer_new_game {Pos : Type} (R : Rules Pos) :
    ∀ (envs : List TurnEnv) (ls : LoopState Pos),
      (∀ x ∈ envs, x.dbOK = true) →
      ls.server.moveHistory = [] →
      ls.playerIndex = 0 →
      R.outcome ls.server.game = "*" →
      ∀ gs : GameState, (offersOf (playGameRun R envs ls).2).head? = some gs →
        gs.moveHistory.length = 1 ∧ gs.gameOutcome = "" ∧ gs.lastPlayer = "openai" := by
  intro envs
  induction envs with
  | nil =>
    intro ls _ _ _ _ gs hgs
    simp [playGameRun, offersOf] at hgs
  | cons e es ih =>
    intro ls hdb hh hp hstar gs hgs
    have hdbe : e.dbOK = true := hdb e (by simp)
    have hdbes : ∀ x ∈ es, x.dbOK = true := fun x hx => hdb x (by simp [hx])
    cases hok : (turnMove R e ls).ok with
    | false =>
      have hf := (step_turn_fail R e ls hstar hdbe hok).1
      rw [playGameRun_cons] at hgs
      rw [hf] at hgs
      simp only [offersOf_append] at hgs
      have hte : offersOf (ls, [Ev.turnError (players.getD ls.playerIndex "")]).2 = [] := by
        simp [offersOf]
      rw [hte] at hgs
      simp only [List.nil_append] at hgs
      exact ih ls hdbes hh hp hstar gs hgs
    | true =>
      have hoffers := step_offers_ok R e ls hstar hok
      rw [playGameRun_cons] at hgs
      rw [offersOf_append, hoffers] at hgs
      simp only [List.cons_append, List.head?_cons, Option.some.injEq] at hgs
      subst hgs
      have hspec := turnMove_ok_spec R e ls hok
      refine ⟨?_, rfl, ?_⟩
      · simp [saveSnap, hspec.1, hh]
      · simp [saveSnap, hp, players]

lemma sum_lengths_set (obs : List (List GameState)) (i : Nat) (v : List GameState)
    (h : i < obs.length) :
    ((obs.set i v).map List.length).sum + (obs.getD i []).length
      = (obs.map List.length).sum + v.length := by
  induction obs generalizing i with
  | nil => simp at h
  | cons o os ih =>
    cases i with
    | zero => simp [List.set]; omega
    | succ j =>
      have hj : j < os.length := by simpa using h
      have := ih j hj
      simp only [List.set, List.map_cons, List.sum_cons, List.getD_cons_succ]
      omega

lemma recvStep_measure (s : List GameState × List (List GameState)) (i : Nat) :
    (recvStep s i).1.length + ((recvStep s i).2.map List.length).sum
      = s.1.length + (s.2.map List.length).sum := by
  obtain ⟨ch, obs⟩ := s
  cases ch with
  | nil => rfl
  | cons g rest =>
    by_cases h : i < obs.length
    · have hstep : recvStep (g :: rest, obs) i
          = (rest, obs.set i (obs.getD i [] ++ [g])) := by
        simp [recvStep, h]
      rw [hstep]
      have hset := sum_lengths_set obs i (obs.getD i [] ++ [g]) h
      simp only [List.length_append, List.length_cons, List.length_nil] at hset ⊢
      omega
    · simp [recvStep, h]

lemma recvStep_shape (s : List GameState × List (List GameState)) (i : Nat) :
    (recvStep s i).2.length = s.2.length := by
  obtain ⟨ch, obs⟩ := s
  cases ch with
  | nil => rfl
  | cons g rest =>
    by_cases h : i < obs.length <;> simp [recvStep, h]

lemma foldl_recv_measure (sched : List Nat) :
    ∀ s : List GameState × List (List GameState),
      (sched.foldl recvStep s).1.length
          + ((sched.foldl recvStep s).2.map List.length).sum
        = s.1.length + (s.2.map List.length).sum := by
  induction sched with
  | nil => intro s; rfl
  | cons i rest ih =>
    intro s
    rw [List.foldl_cons, ih (recvStep s i), recvStep_measure]

lemma foldl_recv_shape (sched : List Nat) :
    ∀ s : List GameState × List (List GameState),
      (sched.foldl recvStep s).2.length = s.2.length := by
  induction sched with
  | nil => intro s; rfl
  | cons i rest ih =>
    intro s
    rw [List.foldl_cons, ih (recvStep s i), recvStep_shape]

/-- C1: the claim says a failed persistence write after a successfully
applied move is non-fatal -- the turn still counts, the slot advances and
the broadcast happens.  The code instead propagates saveGameState's error
out of makeMove (line 255), so playGame logs "Error making move", keeps the
same playerIndex and broadcasts nothing for the turn even though the move
was applied.  The concrete run: the provider answers the legal move "e4" on
the first attempt and the db write fails. -/
theorem c1_bug :
    (playGameStep (toyRules 5) envDBFail (initLoop (toyRules 5))).2
        = [Ev.applied "e4" "openai", Ev.turnError "openai"] ∧
    (playGameStep (toyRules 5) envDBFail (initLoop (toyRules 5))).1.server.moveHistory
        = ["e4"] ∧
    (playGameStep (toyRules 5) envDBFail (initLoop (toyRules 5))).1.server.lastMove
        = "e4" ∧
    (playGameStep (toyRules 5) envDBFail (initLoop (toyRules 5))).1.playerIndex = 0 ∧
    (playGameStep (toyRules 5) envDBFail (initLoop (toyRules 5))).1.moveCount = 0 ∧
    offersOf (playGameStep (toyRules 5) envDBFail (initLoop (toyRules 5))).2 = [] ∧
    (playGameStep (toyRules 5) envDBFail (initLoop (toyRules 5))).1.server.channel
        = [] := by
  decide

/-- C2: the claim says every snapshot published while two observers are
attached is received by each of them.  In the code all SSE connections
compete on the single shared Go channel, so each published snapshot is
consumed by exactly one connection: over every delivery schedule the two
observers receive at most one copy of the published snapshot g0 in total,
hence they can never both receive it -- and the concrete schedule [0] shows
the snapshot really is delivered, to observer 0 alone. -/
theorem c2_bug (sched : List Nat) :
    ((obsDeliver sched).2.getD 0 []).length + ((obsDeliver sched).2.getD 1 []).length ≤ 1 ∧
    (obsDeliver [0]).2 = [[g0], []] := by
  constructor
  · have hm := foldl_recv_measure sched ([g0], [[], []])
    have hs := foldl_recv_shape sched ([g0], [[], []])
    obtain ⟨a, b, hab⟩ := List.length_eq_two.mp (by simpa [obsDeliver] using hs)
    have hab2 : (obsDeliver sched).2 = [a, b] := hab
    have hm2 : (obsDeliver sched).1.length + (a.length + b.length) = 1 := by
      have := hm
      rw [show sched.foldl recvStep ([g0], [[], []]) = obsDeliver sched from rfl] at this
      rw [hab2] at this
      simpa using this
    rw [hab2]
    simp only [List.getD_cons_zero, List.getD_cons_succ]
    omega
  · decide

/-- C3 counterexample: the full event trace of a one-move game followed by
the first turn of the next game.  The snapshot offered right after the
"Game over" exit and its final terminal snapshot is the new game's first
save snapshot, and its move history is ["e4"], not empty: snapshots are
only built after a move is applied, so no broadcast snapshot of the new
game ever has an empty history. -/
theorem c3_counterexample :
    (playGameRun (toyRules 1) [envOK, envOK, envOK] (initLoop (toyRules 1))).2
        = [Ev.applied "e4" "openai",
           Ev.offer { fen := "e4", lastMove := "e4", lastPlayer := "openai",
                      moveHistory := ["e4"], gameOutcome := "" },
           Ev.offer { fen := "e4", lastMove := "e4", lastPlayer := "openai",
                      moveHistory := ["e4"], gameOutcome := "1-0" },
           Ev.gameOver "1-0",
           Ev.offer { fen := "e4", lastMove := "e4", lastPlayer := "anthropic",
                      moveHistory := ["e4"], gameOutcome := "1-0" },
           Ev.applied "e4" "openai",
           Ev.offer { fen := "e4", lastMove := "e4", lastPlayer := "openai",
                      moveHistory := ["e4"], gameOutcome := "" },
           Ev.offer { fen := "e4", lastMove := "e4", lastPlayer := "openai",
                      moveHistory := ["e4"], gameOutcome := "1-0" }] ∧
    ((offersOf (playGameRun (toyRules 1) [envOK, envOK, envOK] (initLoop (toyRules 1))).2).getD
        3 default).moveHistory.isEmpty = false := by
  decide

/-- C3 amended: assuming the persistence writes of the new game succeed,
the very next snapshot constructed and broadcast after a finished game is
the new game via its first applied move: its move history has exactly one
element (not zero), its outcome field is the empty string of the save
path, and its lastPlayer is the fixed initial slot "openai". -/
theorem c3_thm {Pos : Type} (R : Rules Pos) (e : TurnEnv) (ls : LoopState Pos)
    (envs : List TurnEnv) (gs : GameState)
    (hinit : R.outcome R.initial = "*")
    (hover : ¬ R.outcome ls.server.game = "*")
    (hdb : ∀ x ∈ envs, x.dbOK = true)
    (hfirst : (offersOf (playGameRun R envs (playGameStep R e ls).1).2).head? = some gs) :
    gs.moveHistory.length = 1 ∧ gs.gameOutcome = "" ∧ gs.lastPlayer = "openai" := by
  have hg := step_gameOver_state R e ls hover
  exact first_offer_new_game R envs (playGameStep R e ls).1 hdb hg.1 hg.2.2.2
    (by rw [hg.2.2.1]; exact hinit) gs hfirst

/-- C3 witness: the amended claim evaluated on a concrete finished game of
the toy oracle followed by one successful turn of the next game. -/
theorem c3_witness :
    ({ fen := "e4", lastMove := "e4", lastPlayer := "openai",
       moveHistory := ["e4"], gameOutcome := "" } : GameState).moveHistory.length = 1 ∧
    ({ fen := "e4", lastMove := "e4", lastPlayer := "openai",
       moveHistory := ["e4"], gameOutcome := "" } : GameState).gameOutcome = "" ∧
    ({ fen := "e4", lastMove := "e4", lastPlayer := "openai",
       moveHistory := ["e4"], gameOutcome := "" } : GameState).lastPlayer = "openai" :=
  c3_thm (toyRules 1) envOK (playGameRun (toyRules 1) [envOK] (initLoop (toyRules 1))).1
    [envOK]
    { fen := "e4", lastMove := "e4", lastPlayer := "openai",
      moveHistory := ["e4"], gameOutcome := "" }
    (by decide) (by decide)
    (by intro x hx
        rw [List.mem_singleton] at hx
        subst hx
        rfl)
    (by decide)

/-- C4: in a game whose only move "e4" is applied by "openai", the final
saved-and-broadcast snapshot carries lastMove "e4" but lastPlayer
"anthropic": playGame advances playerIndex before testing the loop
condition, and the final saveGameState (line 224) uses
players[playerIndex], the slot that did NOT make the last move. -/
theorem c4_bug :
    appliedPairs (playGameRun (toyRules 1) [envOK, envOK] (initLoop (toyRules 1))).2
        = [("e4", "openai")] ∧
    (offersOf (playGameRun (toyRules 1) [envOK, envOK] (initLoop (toyRules 1))).2).length
        = 3 ∧
    (offersOf (playGameRun (toyRules 1) [envOK, envOK] (initLoop (toyRules 1))).2).getD 2 default
        = { fen := "e4", lastMove := "e4", lastPlayer := "anthropic",
            moveHistory := ["e4"], gameOutcome := "1-0" } ∧
    ("anthropic" == "openai") = false := by
  decide

/-- C5 counterexample: in a run containing exactly one finished game
(one "Game over" exit), two offered snapshots carry a terminal outcome, not
one: the loop's own currentState snapshot for the final applied move
already has the terminal outcome string, and the final saveGameState
snapshot repeats it. -/
theorem c5_counterexample :
    ((offersOf (playGameRun (toyRules 1) [envOK, envOK] (initLoop (toyRules 1))).2).countP
        isTerminal) = 2 ∧
    gameOversOf (playGameRun (toyRules 1) [envOK, envOK] (initLoop (toyRules 1))).2 = 1 := by
  decide

/-- C5 amended: for a finished game (a run of turns from an in-progress
state whose outcome is terminal only after the last turn, followed by the
loop exit) with successful persistence, exactly two offered snapshots
carry a terminal outcome: the loop snapshot of the final applied move and
the final saved snapshot. -/
theorem c5_thm {Pos : Type} (R : Rules Pos) (envs : List TurnEnv) (e : TurnEnv)
    (ls : LoopState Pos)
    (hR : ∀ p : Pos, ¬ R.outcome p = "")
    (hdb : ∀ x ∈ envs, x.dbOK = true) (hdbe : e.dbOK = true)
    (hstar : R.outcome ls.server.game = "*")
    (hmid : ∀ i, i < envs.length → R.outcome (stateAt R envs ls i).server.game = "*")
    (hfin : ¬ R.outcome (playGameRun R envs ls).1.server.game = "*") :
    (offersOf (playGameRun R (envs ++ [e]) ls).2).countP isTerminal = 2 := by
  have hA := terminal_count_run R hR envs ls hdb hstar hmid
  have hB : offersOf (playGameRun R [e] (playGameRun R envs ls).1).2
      = [finalSnap R (playGameRun R envs ls).1] := by
    rw [playGameRun_cons]
    simp only [playGameRun, List.append_nil]
    rw [step_gameOver R e (playGameRun R envs ls).1 hfin hdbe]
    simp [offersOf]
  have hterm : isTerminal (finalSnap R (playGameRun R envs ls).1) = true := by
    simp only [isTerminal, finalSnap, Bool.and_eq_true, bne_iff_ne, ne_eq]
    exact ⟨hfin, hR _⟩
  rw [playGameRun_append]
  simp only [offersOf_append, List.countP_append]
  rw [hA, hB]
  simp [hterm, hfin]

/-- C5 witness: the amended count evaluated on a concrete one-move game of
the toy oracle. -/
theorem c5_witness :
    (offersOf (playGameRun (toyRules 1) ([envOK] ++ [envOK])
        (initLoop (toyRules 1))).2).countP isTerminal = 2 :=
  c5_thm (toyRules 1) [envOK] envOK (initLoop (toyRules 1))
    (by intro p
        dsimp [toyRules]
        split <;> decide)
    (by intro x hx
        rw [List.mem_singleton] at hx
        subst hx
        rfl)
    rfl (by decide)
    (by intro i hi
        have h1 : i < 1 := by simpa using hi
        interval_cases i
        decide)
    (by decide)

/-- C6: the claim allows slot(turn i+1) = slot(turn i) only after move
acquisition exhausted all attempts.  In the code the same-slot repetition
fires on any makeMove error, and a failed persistence write after a
successfully applied move is such an error: here acquisition succeeded on
the very first request/validate cycle (calls = 1, the move "e4" was applied
by "openai"), yet the next turn is again openai's. -/
theorem c6_bug :
    players.getD (initLoop (toyRules 5)).playerIndex "" = "openai" ∧
    players.getD (playGameStep (toyRules 5) envDBFail (initLoop (toyRules 5))).1.playerIndex ""
        = "openai" ∧
    appliedPairs (playGameStep (toyRules 5) envDBFail (initLoop (toyRules 5))).2
        = [("e4", "openai")] ∧
    (turnMove (toyRules 5) envDBFail (initLoop (toyRules 5))).calls = 1 := by
  decide

/-- C7: makeMove performs at most 3 request/validate cycles for any
provider behaviour; when every attempt of the turn fails (provider error
or illegal move), makeMove returns a single failure after exactly 3
cycles, the globals are unchanged (no move applied, nothing offered), and
the loop survives: the step leaves the state exactly as it was and records
one turn-failure event carrying the player slot. -/
theorem c7_thm {Pos : Type} (R : Rules Pos) (e : TurnEnv) (ls : LoopState Pos)
    (pr : Nat → Option String)
    (hstar : R.outcome ls.server.game = "*")
    (hfail : ∀ k, k < 3 → attFails R ls.server.game (e.provider k) = true) :
    (makeMove R e.dbOK (players.getD ls.playerIndex "") pr ls.server).calls ≤ 3 ∧
    (turnMove R e ls).ok = false ∧
    (turnMove R e ls).st = ls.server ∧
    (turnMove R e ls).calls = 3 ∧
    (turnMove R e ls).evs = [] ∧
    (playGameStep R e ls).1 = ls ∧
    (playGameStep R e ls).2 = [Ev.turnError (players.getD ls.playerIndex "")] := by
  have hall : ∀ r ∈ (List.range 3).map e.provider,
      attFails R ls.server.game r = true := by
    intro r hr
    rcases List.mem_map.mp hr with ⟨k, hk, rfl⟩
    exact hfail k (List.mem_range.mp hk)
  have hexh := makeMoveGo_exhaust R e.dbOK (players.getD ls.playerIndex "")
      ((List.range 3).map e.provider) "" ls.server hall
  have htm : turnMove R e ls
      = { ok := false, st := ls.server, evs := [], calls := 3 } := by
    rw [turnMove_eq, hexh]
    simp
  have hcalls := makeMoveGo_calls_le R e.dbOK (players.getD ls.playerIndex "")
      ((List.range 3).map pr) "" ls.server
  have hfst : (playGameStep R e ls).1 = ls := by
    rw [step_turn_fail_any R e ls hstar (by rw [htm]), htm]
  have hsnd : (playGameStep R e ls).2
      = [Ev.turnError (players.getD ls.playerIndex "")] := by
    rw [step_turn_fail_any R e ls hstar (by rw [htm]), htm]
    simp
  exact ⟨by simpa [makeMove] using hcalls, by rw [htm], by rw [htm], by rw [htm],
    by rw [htm], hfst, hsnd⟩

/-- C7 witness: the exhaustion behaviour evaluated on a provider that
answers the illegal text "bad" on every attempt. -/
theorem c7_witness :
    (makeMove (toyRules 5) envBad.dbOK
        (players.getD (initLoop (toyRules 5)).playerIndex "") envBad.provider
        (initLoop (toyRules 5)).server).calls ≤ 3 ∧
    (turnMove (toyRules 5) envBad (initLoop (toyRules 5))).ok = false ∧
    (turnMove (toyRules 5) envBad (initLoop (toyRules 5))).st
        = (initLoop (toyRules 5)).server ∧
    (turnMove (toyRules 5) envBad (initLoop (toyRules 5))).calls = 3 ∧
    (turnMove (toyRules 5) envBad (initLoop (toyRules 5))).evs = [] ∧
    (playGameStep (toyRules 5) envBad (initLoop (toyRules 5))).1 = initLoop (toyRules 5) ∧
    (playGameStep (toyRules 5) envBad (initLoop (toyRules 5))).2
        = [Ev.turnError (players.getD (initLoop (toyRules 5)).playerIndex "")] :=
  c7_thm (toyRules 5) envBad (initLoop (toyRules 5)) envBad.provider (by decide)
    (fun k _ => rfl)

/-- C8: starting from an empty history, over any run of turn steps within
one game instance the move history equals the ordered list of applied
moves -- so after N applied moves its length is exactly N -- and lastMove
is its last element; and the history and lastMove reset to empty exactly
when a terminal step starts a new game. -/
theorem c8_thm {Pos : Type} (R : Rules Pos) (envs : List TurnEnv) (ls l2 : LoopState Pos)
    (x : TurnEnv)
    (h1 : ls.server.moveHistory = []) (h2 : ls.server.lastMove = "")
    (hmid : ∀ i, i < envs.length → R.outcome (stateAt R envs ls i).server.game = "*")
    (hterm : ¬ R.outcome l2.server.game = "*") :
    (playGameRun R envs ls).1.server.moveHistory = appliedOf (playGameRun R envs ls).2 ∧
    (playGameRun R envs ls).1.server.lastMove
      = (appliedOf (playGameRun R envs ls).2).getLastD "" ∧
    (playGameStep R x l2).1.server.moveHistory = [] ∧
    (playGameStep R x l2).1.server.lastMove = "" := by
  have hr := run_hist R envs ls hmid
  have hg := step_gameOver_state R x l2 hterm
  refine ⟨?_, ?_, hg.1, hg.2.1⟩
  · rw [hr.1, h1]
    simp
  · rw [hr.2, h2]

/-- C8 witness: the history invariant evaluated on two successful turns of
the toy oracle and on a concrete finished-game state. -/
theorem c8_witness :
    (playGameRun (toyRules 5) [envOK, envOK] (initLoop (toyRules 5))).1.server.moveHistory
        = appliedOf (playGameRun (toyRules 5) [envOK, envOK] (initLoop (toyRules 5))).2 ∧
    (playGameRun (toyRules 5) [envOK, envOK] (initLoop (toyRules 5))).1.server.lastMove
        = (appliedOf
            (playGameRun (toyRules 5) [envOK, envOK] (initLoop (toyRules 5))).2).getLastD "" ∧
    (playGameStep (toyRules 5) envOK doneLS).1.server.moveHistory = [] ∧
    (playGameStep (toyRules 5) envOK doneLS).1.server.lastMove = "" :=
  c8_thm (toyRules 5) [envOK, envOK] (initLoop (toyRules 5)) doneLS envOK rfl rfl
    (by intro i hi
        have h2 : i < 2 := by simpa using hi
        interval_cases i <;> decide) (by decide)

/-- C9: publish is a total function of the backlog alone (it cannot block,
whatever the number of attached observers, including zero): it preserves
the existing backlog as a prefix, appends the snapshot when the backlog
has free space, and drops it leaving the backlog unchanged when the
backlog is full (length 100). -/
theorem c9_thm (ch : List GameState) (gs : GameState) :
    (publish ch gs).take ch.length = ch ∧
    (publish ch gs).drop ch.length = (if ch.length < 100 then [gs] else []) ∧
    (publish ch gs).length = ch.length + (if ch.length < 100 then 1 else 0) := by
  unfold publish
  by_cases h : ch.length < 100 <;>
    simp [h, List.take_left, List.drop_left]

/-- C10 counterexample: a successfully applied move whose persistence write
fails causes zero snapshots to be offered to the channel, not two:
saveGameState returns before its channel send, and the loop's own send is
skipped because makeMove returned the error. -/
theorem c10_counterexample :
    appliedPairs (playGameStep (toyRules 5) envDBFail (initLoop (toyRules 5))).2
        = [("e4", "openai")] ∧
    offersOf (playGameStep (toyRules 5) envDBFail (initLoop (toyRules 5))).2 = [] := by
  decide

/-- C10 amended: a successfully applied move whose persistence write
succeeds causes exactly two snapshots to be offered to the channel, in
order: the saveGameState snapshot whose outcome field is the empty string,
then the loop snapshot whose outcome field is the engine outcome string;
they are distinct whenever the engine outcome is not the empty string.
When the write fails instead, no snapshot at all is offered (see the
counterexample). -/
theorem c10_thm {Pos : Type} (R : Rules Pos) (e : TurnEnv) (ls : LoopState Pos)
    (hstar : R.outcome ls.server.game = "*")
    (hok : (turnMove R e ls).ok = true)
    (hne : ¬ R.outcome (turnMove R e ls).st.game = "") :
    offersOf (playGameStep R e ls).2 = [saveSnap R e ls, loopSnap R e ls] ∧
    (turnMove R e ls).st.moveHistory
      = ls.server.moveHistory ++ [(turnMove R e ls).st.lastMove] ∧
    (saveSnap R e ls).gameOutcome = "" ∧
    (loopSnap R e ls).gameOutcome = R.outcome (turnMove R e ls).st.game ∧
    (saveSnap R e ls == loopSnap R e ls) = false := by
  refine ⟨step_offers_ok R e ls hstar hok, (turnMove_ok_spec R e ls hok).1, rfl, rfl, ?_⟩
  have hneq : saveSnap R e ls ≠ loopSnap R e ls := by
    intro hcontra
    have hout := congrArg GameState.gameOutcome hcontra
    simp only [saveSnap, loopSnap] at hout
    exact hne hout.symm
  simpa [beq_eq_false_iff_ne] using hneq

/-- C10 witness: the two offers evaluated on a successful turn of the toy
oracle. -/
theorem c10_witness :
    offersOf (playGameStep (toyRules 5) envOK (initLoop (toyRules 5))).2
        = [saveSnap (toyRules 5) envOK (initLoop (toyRules 5)),
           loopSnap (toyRules 5) envOK (initLoop (toyRules 5))] ∧
    (turnMove (toyRules 5) envOK (initLoop (toyRules 5))).st.moveHistory
        = (initLoop (toyRules 5)).server.moveHistory
            ++ [(turnMove (toyRules 5) envOK (initLoop (toyRules 5))).st.lastMove] ∧
    (saveSnap (toyRules 5) envOK (initLoop (toyRules 5))).gameOutcome = "" ∧
    (loopSnap (toyRules 5) envOK (initLoop (toyRules 5))).gameOutcome
        = (toyRules 5).outcome (turnMove (toyRules 5) envOK (initLoop (toyRules 5))).st.game ∧
    (saveSnap (toyRules 5) envOK (initLoop (toyRules 5))
        == loopSnap (toyRules 5) envOK (initLoop (toyRules 5))) = false :=
  c10_thm (toyRules 5) envOK (initLoop (toyRules 5)) (by decide) (by decide) (by decide)
